import Mathlib

/-!
Shallow embedding of rustw `src/config.rs`: the typed configuration loader.
The declarative `create_config!` schema produces the full `Config` record,
the sparse `ParsedConfig` overlay, the merge (`fill_from_parsed_config`),
the load entry point (`from_toml`) and the documentation renderer
(`print_docs`).  `impl_enum_decodable!` produces case-insensitive
string-to-enum decoding, modelled here generically over a variant list.
-/

namespace Rustw

/-! ### ASCII case-insensitive comparison (`eq_ignore_ascii_case`) -/

/-- ASCII-only lowercase folding of one character, as Rust
`to_ascii_lowercase`: bytes 0x41..0x5A map down by 0x20, all else fixed. -/
def to_ascii_lowercase (c : Char) : Char :=
  if 65 ≤ c.toNat ∧ c.toNat ≤ 90 then Char.ofNat (c.toNat + 32) else c

/-- Rust `str::eq_ignore_ascii_case`: equality after ASCII-only lowering
of every character. -/
def eq_ignore_ascii_case (a b : String) : Bool :=
  a.toList.map to_ascii_lowercase == b.toList.map to_ascii_lowercase

/-! ### Enum decoding (`impl_enum_decodable!` / `from_str`)

The macro generates, for an enum with variants `x1, ..., xn`, a `from_str`
that tests `stringify!(xi).eq_ignore_ascii_case(s)` in declaration order and
returns the first hit, or `Err("Bad variant")`.  We embed it generically over
the ordered list of variant names, a variant being identified by its name. -/

/-- `from_str` of `impl_enum_decodable!`, over the declared variant names. -/
def from_str : List String → String → Except String String
  | [], _ => Except.error "Bad variant"
  | v :: vs, s =>
      if eq_ignore_ascii_case v s then Except.ok v else from_str vs s

/-- `get_variant_names` of `impl_enum_decodable!`:
brackets around the names joined with a bar. -/
def enum_get_variant_names (variants : List String) : String :=
  "[" ++ String.intercalate "|" variants ++ "]"

/-! ### ConfigType value-kind descriptions -/

def bool_get_variant_names : String := "<boolean>"

def usize_get_variant_names : String := "<unsigned integer>"

def string_get_variant_names : String := "<string>"

/-! ### The configuration records generated by `create_config!` -/

/-- The full configuration record: one field per declared option. -/
structure Config where
  build_command : String
  edit_command : String
  port : Nat
  demo_mode : Bool
  demo_mode_root_path : String
  context_lines : Nat
  build_on_load : Bool
  source_directory : String
  save_analysis : Bool
deriving Repr, DecidableEq

/-- The sparse overlay record: every field of `Config` wrapped in `Option`,
present only when the document specified it. -/
structure ParsedConfig where
  build_command : Option String
  edit_command : Option String
  port : Option Nat
  demo_mode : Option Bool
  demo_mode_root_path : Option String
  context_lines : Option Nat
  build_on_load : Option Bool
  source_directory : Option String
  save_analysis : Option Bool
deriving Repr, DecidableEq

/-- The overlay with no field present. -/
def empty_parsed_config : ParsedConfig :=
  ⟨none, none, none, none, none, none, none, none, none⟩

/-- `impl Default for Config`: each declared option set to its declared
default expression. -/
def Config.default : Config :=
  { build_command := "cargo build"
    edit_command := ""
    port := 7878
    demo_mode := false
    demo_mode_root_path := ""
    context_lines := 2
    build_on_load := true
    source_directory := "src"
    save_analysis := false }

/-- `Config::fill_from_parsed_config`: field-wise, overwrite `self.i` with
`val` whenever `parsed.i = Some val`, else keep `self.i`. -/
def Config.fill_from_parsed_config (self : Config) (parsed : ParsedConfig) :
    Config :=
  { build_command := parsed.build_command.getD self.build_command
    edit_command := parsed.edit_command.getD self.edit_command
    port := parsed.port.getD self.port
    demo_mode := parsed.demo_mode.getD self.demo_mode
    demo_mode_root_path :=
      parsed.demo_mode_root_path.getD self.demo_mode_root_path
    context_lines := parsed.context_lines.getD self.context_lines
    build_on_load := parsed.build_on_load.getD self.build_on_load
    source_directory := parsed.source_directory.getD self.source_directory
    save_analysis := parsed.save_analysis.getD self.save_analysis }

/-! ### The external TOML collaborator, modelled from the spec -/

/-- Modelled from the spec: the scalar values of the minimal TOML subset the
document format uses — booleans, unsigned integers and quoted strings.  The
TOML value tree type lives in the external `toml` crate, absent from the
sources. -/
inductive TomlValue where
  | bool : Bool → TomlValue
  | int : Nat → TomlValue
  | str : String → TomlValue
deriving Repr, DecidableEq

/-- Characters the line parser treats as horizontal whitespace. -/
def is_toml_space (c : Char) : Bool :=
  c == ' ' || c == '\t' || c == '\r'

/-- Trim leading and trailing whitespace from a character list. -/
def trim_chars (cs : List Char) : List Char :=
  ((cs.dropWhile is_toml_space).reverse.dropWhile is_toml_space).reverse

/-- Split a character list into lines at newline characters. -/
def split_lines : List Char → List (List Char)
  | [] => [[]]
  | c :: rest =>
      if c == '\n' then [] :: split_lines rest
      else
        match split_lines rest with
        | [] => [[c]]
        | l :: ls => (c :: l) :: ls

/-- Split a line at its first equals sign, when there is one. -/
def split_at_eq : List Char → Option (List Char × List Char)
  | [] => none
  | c :: rest =>
      if c == '=' then some ([], rest)
      else (split_at_eq rest).map (fun p => (c :: p.1, p.2))

/-- Decimal digit value of a character. -/
def digit_val (c : Char) : Option Nat :=
  if 48 ≤ c.toNat ∧ c.toNat ≤ 57 then some (c.toNat - 48) else none

def parse_nat_aux : List Char → Nat → Option Nat
  | [], acc => some acc
  | c :: rest, acc =>
      match digit_val c with
      | some d => parse_nat_aux rest (acc * 10 + d)
      | none => none

/-- Parse a nonempty all-digit character list as an unsigned integer. -/
def parse_nat_chars : List Char → Option Nat
  | [] => none
  | c :: rest => parse_nat_aux (c :: rest) 0

/-- Parse the body of a quoted string: the characters up to a closing
double quote that must terminate the list; fails when the quote is
unterminated or an interior quote appears. -/
def parse_quoted : List Char → Option (List Char)
  | [] => none
  | c :: rest =>
      if c == '"' then
        match rest with
        | [] => some []
        | _ :: _ => none
      else (parse_quoted rest).map (fun l => c :: l)

/-- Modelled from the spec: value grammar of the external document parser —
a value is the literal `true` or `false`, an unsigned decimal integer, or a
double-quoted string. -/
def parse_value_chars (cs : List Char) : Option TomlValue :=
  if cs = ['t', 'r', 'u', 'e'] then some (TomlValue.bool true)
  else if cs = ['f', 'a', 'l', 's', 'e'] then some (TomlValue.bool false)
  else
    match cs with
    | '"' :: rest => (parse_quoted rest).map (fun l => TomlValue.str (String.mk l))
    | _ => (parse_nat_chars cs).map TomlValue.int

/-- Modelled from the spec: one line of the document is blank or a
`key = value` pair; anything else is a structural parse failure. -/
def parse_toml_line (line : List Char) : Option (List (List Char × TomlValue)) :=
  let t := trim_chars line
  if t = [] then some []
  else
    match split_at_eq t with
    | none => none
    | some (k, v) =>
        let key := trim_chars k
        if key = [] then none
        else
          match parse_value_chars (trim_chars v) with
          | none => none
          | some tv => some [(key, tv)]

/-- Modelled from the spec: the external structural parser (`str::parse` into
a `toml::Value` table in the sources) — the document is a sequence of lines,
each blank or `key = value`; any ill-formed line makes the whole document
malformed. -/
def parse_toml (cs : List Char) : Option (List (List Char × TomlValue)) :=
  (split_lines cs).foldr
    (fun line acc =>
      match parse_toml_line line, acc with
      | some kv, some rest => some (kv ++ rest)
      | _, _ => none)
    (some [])

/-- First value bound to a key in the parsed table. -/
def lookup_toml (kvs : List (List Char × TomlValue)) (k : List Char) :
    Option TomlValue :=
  match kvs with
  | [] => none
  | (k0, v0) :: rest => if k0 == k then some v0 else lookup_toml rest k

/-- Modelled from the spec: typed extraction of an optional string field by
the external decoder; an absent key yields an absent field, a key of the
wrong shape is a decode failure. -/
def get_str_field (kvs : List (List Char × TomlValue)) (k : List Char) :
    Option (Option String) :=
  match lookup_toml kvs k with
  | none => some none
  | some (TomlValue.str s) => some (some s)
  | some _ => none

/-- Modelled from the spec: typed extraction of an optional unsigned integer
field by the external decoder. -/
def get_nat_field (kvs : List (List Char × TomlValue)) (k : List Char) :
    Option (Option Nat) :=
  match lookup_toml kvs k with
  | none => some none
  | some (TomlValue.int n) => some (some n)
  | some _ => none

/-- Modelled from the spec: typed extraction of an optional boolean field by
the external decoder. -/
def get_bool_field (kvs : List (List Char × TomlValue)) (k : List Char) :
    Option (Option Bool) :=
  match lookup_toml kvs k with
  | none => some none
  | some (TomlValue.bool b) => some (some b)
  | some _ => none

/-- The names of the declared options, in declaration order. -/
def schema_keys : List (List Char) :=
  ["build_command".toList, "edit_command".toList, "port".toList,
   "demo_mode".toList, "demo_mode_root_path".toList, "context_lines".toList,
   "build_on_load".toList, "source_directory".toList, "save_analysis".toList]

/-- Modelled from the spec: `toml::decode` into `ParsedConfig` (the derived
`RustcDecodable`) — each declared field is extracted by name and type,
keys outside the schema are ignored. -/
def decode_parsed_config (kvs : List (List Char × TomlValue)) :
    Option ParsedConfig := do
  let build_command ← get_str_field kvs "build_command".toList
  let edit_command ← get_str_field kvs "edit_command".toList
  let port ← get_nat_field kvs "port".toList
  let demo_mode ← get_bool_field kvs "demo_mode".toList
  let demo_mode_root_path ← get_str_field kvs "demo_mode_root_path".toList
  let context_lines ← get_nat_field kvs "context_lines".toList
  let build_on_load ← get_bool_field kvs "build_on_load".toList
  let source_directory ← get_str_field kvs "source_directory".toList
  let save_analysis ← get_bool_field kvs "save_analysis".toList
  pure ⟨build_command, edit_command, port, demo_mode, demo_mode_root_path,
        context_lines, build_on_load, source_directory, save_analysis⟩

/-! ### Loading (`Config::from_toml`) -/

/-- The error taxonomy of the spec, used to state what `from_toml` was
claimed to return.  (Modelled from the spec: the sources return no error
value at all — see `Outcome.panic`.) -/
inductive LoadError where
  | malformedDocument
  | typeMismatch
  | unknownVariant
deriving Repr, DecidableEq

/-- Result of a fallible entry point: a value, a returned error value, or a
Rust panic (`expect` / `panic!`), which aborts instead of returning. -/
inductive Outcome (α : Type) where
  | ok : α → Outcome α
  | err : LoadError → Outcome α
  | panic : String → Outcome α
deriving Repr, DecidableEq

/-- The decode-and-merge half of `Config::from_toml`, applied once the
document has structurally parsed: decode into `ParsedConfig` — a decode
failure prints and hits `panic!()` — then fill the defaults. -/
def load_parsed (kvs : List (List Char × TomlValue)) : Outcome Config :=
  match decode_parsed_config kvs with
  | none => Outcome.panic "explicit panic"
  | some pc => Outcome.ok (Config.default.fill_from_parsed_config pc)

/-- `Config::from_toml`: `toml.parse().expect("Could not parse TOML")`
panics on a malformed document; otherwise decode and merge. -/
def Config.from_toml (toml : String) : Outcome Config :=
  match parse_toml toml.toList with
  | none => Outcome.panic "Could not parse TOML"
  | some kvs => load_parsed kvs

/-! ### Documentation rendering (`Config::print_docs`)

`print_docs` writes lines to standard output; the embedding collects the
lines written, in order.  The schema metadata the macro repetition ranges
over is embedded as a list: for each option, its name, the
`get_variant_names()` of its type, the `{:?}` rendering of its default
expression, and its help lines. -/

/-- One `$i: $ty, $def, $($dstring),+` row of the `create_config!`
invocation, as `print_docs` consumes it. -/
structure OptionDecl where
  name : String
  kind_desc : String
  default_debug : String
  help_lines : List String
deriving Repr, DecidableEq

/-- The nine option declarations of the `create_config!` invocation, in
declaration order. -/
def schema : List OptionDecl :=
  [⟨"build_command", string_get_variant_names, "\"cargo build\"",
    ["command to call to build"]⟩,
   ⟨"edit_command", string_get_variant_names, "\"\"",
    ["command to call to edit; can use $file, $line, and $col."]⟩,
   ⟨"port", usize_get_variant_names, "7878",
    ["port to run rustw on"]⟩,
   ⟨"demo_mode", bool_get_variant_names, "false",
    ["run in demo mode"]⟩,
   ⟨"demo_mode_root_path", string_get_variant_names, "\"\"",
    ["path to use in URLs in demo mode"]⟩,
   ⟨"context_lines", usize_get_variant_names, "2",
    ["lines of context to show before and after code snippets"]⟩,
   ⟨"build_on_load", bool_get_variant_names, "true",
    ["build on page load and refresh"]⟩,
   ⟨"source_directory", string_get_variant_names, "\"src\"",
    ["root of the source directory"]⟩,
   ⟨"save_analysis", bool_get_variant_names, "false",
    ["whether to run the save_analysis pass"]⟩]

/-- A string of `n` spaces. -/
def spaces (n : Nat) : String := String.mk (List.replicate n ' ')

/-- `Config::print_docs`, as the list of lines it prints.  `max` folds
`cmp::max(max, stringify!($i).len()+1)` from `0`; each option prints a name
line padded with `max-1-len` leading spaces and a trailing space before the
variant names and ` Default: {:?}`, then each help line behind `space_str`
(of length `max`), then an empty line. -/
def Config.print_docs : List String :=
  let mx := schema.foldl (fun m o => Nat.max m (o.name.length + 1)) 0
  let space_str := spaces mx
  "Configuration Options:" ::
    (schema.map (fun o =>
      (spaces (mx - 1 - o.name.length) ++ o.name ++ " "
          ++ o.kind_desc ++ " Default: " ++ o.default_debug)
        :: o.help_lines.map (fun d => space_str ++ d) ++ [""])).flatten

/-- The width of the longest declared option name. -/
def longest_name_width : Nat :=
  schema.foldl (fun m o => Nat.max m o.name.length) 0

/-- The per-option documentation block as the spec describes it: the name
left-padded to the longest option name width, a space, the value-kind
description, the literal `Default:` and the debug rendering of the default,
each help line indented beneath, then a blank separator line. -/
def render_block_spec (o : OptionDecl) : List String :=
  (spaces (longest_name_width - o.name.length) ++ o.name ++ " "
      ++ o.kind_desc ++ " Default: " ++ o.default_debug)
    :: o.help_lines.map (fun d => spaces (longest_name_width + 1) ++ d)
    ++ [""]

/-! ### Helper lemmas -/

/-- Case-insensitive equality holds exactly when the folded character lists
agree. -/
theorem eq_ignore_ascii_case_iff (a b : String) :
    eq_ignore_ascii_case a b = true ↔
      a.toList.map to_ascii_lowercase = b.toList.map to_ascii_lowercase := by
  simp [eq_ignore_ascii_case]

/-- Two strings that both match a third case-insensitively match each other
case-insensitively. -/
theorem eq_ignore_ascii_case_trans_right {a b s : String}
    (ha : eq_ignore_ascii_case a s = true)
    (hb : eq_ignore_ascii_case b s = true) :
    eq_ignore_ascii_case a b = true := by
  rw [eq_ignore_ascii_case_iff] at *
  exact ha.trans hb.symm

/-- Failing to match case-insensitively is a symmetric relation. -/
theorem eq_ignore_ascii_case_false_symm :
    Symmetric (fun a b : String => eq_ignore_ascii_case a b = false) := by
  intro a b h
  rw [Bool.eq_false_iff, Ne, eq_ignore_ascii_case_iff] at *
  exact fun he => h he.symm

/-- The generated `from_str` is the first-match lookup over the declared
variant names. -/
theorem from_str_eq_find (variants : List String) (s : String) :
    from_str variants s =
      match variants.find? (fun u => eq_ignore_ascii_case u s) with
      | some v => Except.ok v
      | none => Except.error "Bad variant" := by
  induction variants with
  | nil => rfl
  | cons v vs ih =>
      cases h : eq_ignore_ascii_case v s with
      | true => simp [from_str, List.find?, h]
      | false => simp [from_str, List.find?, h, ih]

/-- An entry whose key is not the looked-up key can be dropped from the
table without changing the lookup. -/
theorem lookup_toml_middle (pre post : List (List Char × TomlValue))
    (k k2 : List Char) (v : TomlValue) (h : k2 ≠ k) :
    lookup_toml (pre ++ (k, v) :: post) k2 = lookup_toml (pre ++ post) k2 := by
  induction pre with
  | nil =>
      have hk : (k == k2) = false := by
        simp only [beq_eq_false_iff_ne, Ne]
        exact fun hh => h hh.symm
      simp [lookup_toml, hk]
  | cons p rest ih =>
      cases p with
      | mk k0 v0 =>
          cases hk0 : (k0 == k2) with
          | true => simp [lookup_toml, hk0]
          | false => simp [lookup_toml, hk0, ih]

/-! ### Claim theorems -/

/-- C2: loading the document text `port = 9000\ndemo_mode = true` succeeds
and yields the record where `port` is `9000`, `demo_mode` is `true`, and
every other field keeps its schema default. -/
theorem load_overlay_scenario :
    Config.from_toml "port = 9000\ndemo_mode = true" =
      Outcome.ok { Config.default with port := 9000, demo_mode := true } := by
  rfl

/-- C4: `default()` yields the record with every declared option set to its
declared default value. -/
theorem default_completeness :
    Config.default.build_command = "cargo build" ∧
    Config.default.edit_command = "" ∧
    Config.default.port = 7878 ∧
    Config.default.demo_mode = false ∧
    Config.default.demo_mode_root_path = "" ∧
    Config.default.context_lines = 2 ∧
    Config.default.build_on_load = true ∧
    Config.default.source_directory = "src" ∧
    Config.default.save_analysis = false :=
  ⟨rfl, rfl, rfl, rfl, rfl, rfl, rfl, rfl, rfl⟩

/-- C6: merging any full record with the empty overlay returns the record
unchanged; the merge is a total function. -/
theorem merge_identity (d : Config) :
    d.fill_from_parsed_config empty_parsed_config = d := by
  cases d
  rfl

/-- C10: the documentation printer always emits the fixed header line
`Configuration Options:` before any per-option block. -/
theorem print_docs_header_line :
    Config.print_docs.head? = some "Configuration Options:" := by
  rfl

/-- C8: the documentation renderer emits, for each declared option in
declaration order, the name left-padded to the longest option name width, a
space, the value-kind description, the literal `Default:` with the debug
rendering of the default value, the indented help lines and a blank
separator line; it is a total function of the schema alone. -/
theorem print_docs_renders_spec :
    Config.print_docs =
      "Configuration Options:" :: (schema.map render_block_spec).flatten := by
  rfl

/-- C1 counterexample: it is not the case that a structurally malformed
document makes `from_toml` return a `MalformedDocument` error value; at the
unterminated-quote document the call panics instead. -/
theorem load_malformed_not_an_error :
    ¬ ∀ doc : String, parse_toml doc.toList = none →
        Config.from_toml doc = Outcome.err LoadError.malformedDocument :=
  fun h => absurd (h "port = \"" (by decide)) (by decide)

/-- C1 amended: a structurally malformed document makes `from_toml` abort
with the panic `Could not parse TOML`; no configuration record is produced,
but the failure is a panic, not a returned error value. -/
theorem load_malformed_panics (doc : String)
    (h : parse_toml doc.toList = none) :
    Config.from_toml doc = Outcome.panic "Could not parse TOML" ∧
      ∀ c, Config.from_toml doc ≠ Outcome.ok c := by
  have he : Config.from_toml doc = Outcome.panic "Could not parse TOML" := by
    unfold Config.from_toml
    rw [h]
  exact ⟨he, fun c hc => by rw [he] at hc; exact Outcome.noConfusion hc⟩

/-- C1 witness: the unterminated-quote document is malformed and panics. -/
theorem load_malformed_panics_witness :
    parse_toml ("port = \"".toList) = none ∧
      Config.from_toml "port = \"" = Outcome.panic "Could not parse TOML" :=
  ⟨by decide, (load_malformed_panics "port = \"" (by decide)).1⟩

/-- C7: merging any full record with an overlay in which exactly one field
is present sets that field to the present value and leaves every other field
of the record unchanged; stated for each of the nine declared options. -/
theorem merge_override (d : Config) (s1 s2 s3 s4 : String) (n1 n2 : Nat)
    (b1 b2 b3 : Bool) :
    (d.fill_from_parsed_config
        ⟨some s1, none, none, none, none, none, none, none, none⟩ =
      { d with build_command := s1 }) ∧
    (d.fill_from_parsed_config
        ⟨none, some s2, none, none, none, none, none, none, none⟩ =
      { d with edit_command := s2 }) ∧
    (d.fill_from_parsed_config
        ⟨none, none, some n1, none, none, none, none, none, none⟩ =
      { d with port := n1 }) ∧
    (d.fill_from_parsed_config
        ⟨none, none, none, some b1, none, none, none, none, none⟩ =
      { d with demo_mode := b1 }) ∧
    (d.fill_from_parsed_config
        ⟨none, none, none, none, some s3, none, none, none, none⟩ =
      { d with demo_mode_root_path := s3 }) ∧
    (d.fill_from_parsed_config
        ⟨none, none, none, none, none, some n2, none, none, none⟩ =
      { d with context_lines := n2 }) ∧
    (d.fill_from_parsed_config
        ⟨none, none, none, none, none, none, some b2, none, none⟩ =
      { d with build_on_load := b2 }) ∧
    (d.fill_from_parsed_config
        ⟨none, none, none, none, none, none, none, some s4, none⟩ =
      { d with source_directory := s4 }) ∧
    (d.fill_from_parsed_config
        ⟨none, none, none, none, none, none, none, none, some b3⟩ =
      { d with save_analysis := b3 }) := by
  cases d
  exact ⟨rfl, rfl, rfl, rfl, rfl, rfl, rfl, rfl, rfl⟩

/-- C9: when every field of the overlay is present, the merge result does
not depend on the record being merged into. -/
theorem merge_full_overlay_independent (o : ParsedConfig)
    (h : o.build_command.isSome = true ∧ o.edit_command.isSome = true ∧
         o.port.isSome = true ∧ o.demo_mode.isSome = true ∧
         o.demo_mode_root_path.isSome = true ∧
         o.context_lines.isSome = true ∧ o.build_on_load.isSome = true ∧
         o.source_directory.isSome = true ∧ o.save_analysis.isSome = true) :
    ∀ d1 d2 : Config,
      d1.fill_from_parsed_config o = d2.fill_from_parsed_config o := by
  intro d1 d2
  obtain ⟨h1, h2, h3, h4, h5, h6, h7, h8, h9⟩ := h
  cases o
  obtain ⟨v1, hv1⟩ := Option.isSome_iff_exists.mp h1
  obtain ⟨v2, hv2⟩ := Option.isSome_iff_exists.mp h2
  obtain ⟨v3, hv3⟩ := Option.isSome_iff_exists.mp h3
  obtain ⟨v4, hv4⟩ := Option.isSome_iff_exists.mp h4
  obtain ⟨v5, hv5⟩ := Option.isSome_iff_exists.mp h5
  obtain ⟨v6, hv6⟩ := Option.isSome_iff_exists.mp h6
  obtain ⟨v7, hv7⟩ := Option.isSome_iff_exists.mp h7
  obtain ⟨v8, hv8⟩ := Option.isSome_iff_exists.mp h8
  obtain ⟨v9, hv9⟩ := Option.isSome_iff_exists.mp h9
  subst hv1 hv2 hv3 hv4 hv5 hv6 hv7 hv8 hv9
  rfl

/-- C9 witness: a concrete all-present overlay merged into two different
records gives the same result. -/
theorem merge_full_overlay_independent_witness :
    ((⟨some "a", some "b", some 1, some true, some "c", some 2, some false,
       some "d", some true⟩ : ParsedConfig).build_command.isSome = true ∧
      (⟨some "a", some "b", some 1, some true, some "c", some 2, some false,
        some "d", some true⟩ : ParsedConfig).edit_command.isSome = true ∧
      (⟨some "a", some "b", some 1, some true, some "c", some 2, some false,
        some "d", some true⟩ : ParsedConfig).port.isSome = true ∧
      (⟨some "a", some "b", some 1, some true, some "c", some 2, some false,
        some "d", some true⟩ : ParsedConfig).demo_mode.isSome = true ∧
      (⟨some "a", some "b", some 1, some true, some "c", some 2, some false,
        some "d", some true⟩ :
          ParsedConfig).demo_mode_root_path.isSome = true ∧
      (⟨some "a", some "b", some 1, some true, some "c", some 2, some false,
        some "d", some true⟩ : ParsedConfig).context_lines.isSome = true ∧
      (⟨some "a", some "b", some 1, some true, some "c", some 2, some false,
        some "d", some true⟩ : ParsedConfig).build_on_load.isSome = true ∧
      (⟨some "a", some "b", some 1, some true, some "c", some 2, some false,
        some "d", some true⟩ : ParsedConfig).source_directory.isSome = true ∧
      (⟨some "a", some "b", some 1, some true, some "c", some 2, some false,
        some "d", some true⟩ : ParsedConfig).save_analysis.isSome = true) ∧
    Config.default.fill_from_parsed_config
        ⟨some "a", some "b", some 1, some true, some "c", some 2, some false,
         some "d", some true⟩ =
      Config.fill_from_parsed_config
        ⟨"x", "y", 9, false, "z", 7, true, "w", true⟩
        ⟨some "a", some "b", some 1, some true, some "c", some 2, some false,
         some "d", some true⟩ :=
  ⟨by decide,
   merge_full_overlay_independent _ (by decide) Config.default
     ⟨"x", "y", 9, false, "z", 7, true, "w", true⟩⟩

/-- C3: for any declared variant list (pairwise distinct under ASCII
folding, as distinct enum variant names are) and any input string, decoding
succeeds exactly when the string matches some variant name
case-insensitively; the result is the first match in declaration order; a
matching variant is returned itself; and a string matching no variant fails
with the `Bad variant` error. -/
theorem enum_decoding_contract (variants : List String) (s : String)
    (hdist : variants.Pairwise
      (fun a b => eq_ignore_ascii_case a b = false)) :
    ((∃ v, from_str variants s = Except.ok v) ↔
        ∃ v ∈ variants, eq_ignore_ascii_case v s = true)
    ∧ (∀ v, from_str variants s = Except.ok v ↔
        variants.find? (fun u => eq_ignore_ascii_case u s) = some v)
    ∧ (∀ v ∈ variants, eq_ignore_ascii_case v s = true →
        from_str variants s = Except.ok v)
    ∧ ((∀ v ∈ variants, eq_ignore_ascii_case v s = false) →
        from_str variants s = Except.error "Bad variant") := by
  have hfind := from_str_eq_find variants s
  refine ⟨?_, ?_, ?_, ?_⟩
  · rw [hfind]
    cases hf : variants.find? (fun u => eq_ignore_ascii_case u s) with
    | none =>
        rw [List.find?_eq_none] at hf
        simp only [reduceCtorEq, exists_false, false_iff]
        exact fun ⟨u, hu, hpu⟩ => hf u hu hpu
    | some u =>
        have hpu : eq_ignore_ascii_case u s = true := by
          simpa using List.find?_some hf
        have hmu : u ∈ variants := List.mem_of_find?_eq_some hf
        exact ⟨fun _ => ⟨u, hmu, hpu⟩, fun _ => ⟨u, rfl⟩⟩
  · intro v
    rw [hfind]
    cases hf : variants.find? (fun u => eq_ignore_ascii_case u s) with
    | none => simp
    | some u => simp
  · intro v hv hvs
    have hsome : (variants.find? (fun u => eq_ignore_ascii_case u s)).isSome :=
      List.find?_isSome.mpr ⟨v, hv, hvs⟩
    obtain ⟨u, hu⟩ := Option.isSome_iff_exists.mp hsome
    have hpu : eq_ignore_ascii_case u s = true := by
      simpa using List.find?_some hu
    have hmu : u ∈ variants := List.mem_of_find?_eq_some hu
    have huv : u = v := by
      by_contra hne
      have hfalse : eq_ignore_ascii_case u v = false :=
        hdist.forall eq_ignore_ascii_case_false_symm hmu hv hne
      have htrue : eq_ignore_ascii_case u v = true :=
        eq_ignore_ascii_case_trans_right hpu hvs
      rw [hfalse] at htrue
      exact Bool.noConfusion htrue
    rw [hfind, hu, huv]
  · intro hall
    rw [hfind, List.find?_eq_none.mpr (fun x hx => by simp [hall x hx])]

/-- C3 witness: over the variants `NVariant, Other`, decoding the lowered
spelling `nvariant` returns `NVariant`, and a non-variant string fails. -/
theorem enum_decoding_contract_witness :
    (["NVariant", "Other"] : List String).Pairwise
        (fun a b => eq_ignore_ascii_case a b = false) ∧
      from_str ["NVariant", "Other"] "nvariant" = Except.ok "NVariant" ∧
      from_str ["NVariant", "Other"] "not-a-real-variant" =
        Except.error "Bad variant" :=
  ⟨by decide,
   (enum_decoding_contract ["NVariant", "Other"] "nvariant"
       (by decide)).2.2.1 "NVariant" (by decide) (by decide),
   (enum_decoding_contract ["NVariant", "Other"] "not-a-real-variant"
       (by decide)).2.2.2 (by decide)⟩

/-- C5: inserting an entry whose key is outside the schema anywhere into the
parsed table changes nothing: the decode-and-merge result is the same as
without it, and in particular a successful load stays successful with the
same record. -/
theorem unknown_key_tolerance (pre post : List (List Char × TomlValue))
    (k : List Char) (v : TomlValue) (hk : k ∉ schema_keys) :
    load_parsed (pre ++ (k, v) :: post) = load_parsed (pre ++ post) ∧
      ∀ c, load_parsed (pre ++ post) = Outcome.ok c →
        load_parsed (pre ++ (k, v) :: post) = Outcome.ok c := by
  have hne : ∀ k2 ∈ schema_keys, k2 ≠ k := fun k2 hm he => hk (he ▸ hm)
  have h1 := lookup_toml_middle pre post k "build_command".toList v
    (hne _ (by decide))
  have h2 := lookup_toml_middle pre post k "edit_command".toList v
    (hne _ (by decide))
  have h3 := lookup_toml_middle pre post k "port".toList v
    (hne _ (by decide))
  have h4 := lookup_toml_middle pre post k "demo_mode".toList v
    (hne _ (by decide))
  have h5 := lookup_toml_middle pre post k "demo_mode_root_path".toList v
    (hne _ (by decide))
  have h6 := lookup_toml_middle pre post k "context_lines".toList v
    (hne _ (by decide))
  have h7 := lookup_toml_middle pre post k "build_on_load".toList v
    (hne _ (by decide))
  have h8 := lookup_toml_middle pre post k "source_directory".toList v
    (hne _ (by decide))
  have h9 := lookup_toml_middle pre post k "save_analysis".toList v
    (hne _ (by decide))
  have hdec : decode_parsed_config (pre ++ (k, v) :: post) =
      decode_parsed_config (pre ++ post) := by
    simp only [decode_parsed_config, get_str_field, get_nat_field,
      get_bool_field, h1, h2, h3, h4, h5, h6, h7, h8, h9]
  have heq : load_parsed (pre ++ (k, v) :: post) =
      load_parsed (pre ++ post) := by
    simp only [load_parsed, hdec]
  exact ⟨heq, fun c hc => heq.trans hc⟩

/-- C5 witness: adding the entry `not_a_key = 5` behind `port = 9000` leaves
the decode-and-merge result unchanged. -/
theorem unknown_key_tolerance_witness :
    ("not_a_key".toList ∉ schema_keys) ∧
      load_parsed ([("port".toList, TomlValue.int 9000)] ++
          ("not_a_key".toList, TomlValue.int 5) :: []) =
        load_parsed ([("port".toList, TomlValue.int 9000)] ++ []) :=
  ⟨by decide,
   (unknown_key_tolerance [("port".toList, TomlValue.int 9000)] []
       "not_a_key".toList (TomlValue.int 5) (by decide)).1⟩

end Rustw
